import Mathlib

/-!
# Verification of the Promotor routing and orchestration core

Shallow embedding of `backend/graph/routing.py`, `backend/graph/state.py`
and `backend/graph/main_graph.py`.  Python strings are embedded as Lean
`String`s; `str.lower()` is modelled as per-character `Char.toLower`
(faithful for the ASCII/Hangul alphabet used by the keyword tables),
substring membership (`in`) as an explicit occurrence scan, and the
orchestration LangGraph as a named-node step function over an explicit
state record.
-/

namespace Promotor

/-- The `Division` enum of `backend/graph/state.py`. -/
inductive Division where
| STRATEGIC_PLANNING
| MARKET_INTELLIGENCE
| CHANNEL_MANAGEMENT
| ANALYTICS
| OPERATIONS
deriving DecidableEq, Fintype

/-- `Division.value`: the string value of each enum member. -/
def Division.value : Division → String
| .STRATEGIC_PLANNING => "strategic_planning"
| .MARKET_INTELLIGENCE => "market_intelligence"
| .CHANNEL_MANAGEMENT => "channel_management"
| .ANALYTICS => "analytics"
| .OPERATIONS => "operations"

/-- The `TaskType` enum of `backend/graph/state.py`. -/
inductive TaskType where
| PROMOTION_PLANNING
| TIMELINE_MANAGEMENT
| BUDGET_ALLOCATION
| NEWS_SCOUTING
| COMPETITOR_ANALYSIS
| INGREDIENT_TRENDS
| SEASONAL_ANALYSIS
| CHANNEL_STATUS
| PRICE_SYNC
| INVENTORY_CHECK
| CROSS_CHANNEL
| SENTIMENT_ANALYSIS
| PROMOTION_REVIEW
| BUNDLE_ANALYSIS
| MARGIN_CALCULATION
| STOCKOUT_PREDICTION
| INFLUENCER_ROI
| ATTRIBUTION
| INVENTORY_MONITORING
| PRICE_MONITORING
| CHECKLIST_VALIDATION
| GENERAL_QUERY
| MULTI_DIVISION
deriving DecidableEq, Fintype

/-- `TaskType.value`: the string value of each enum member. -/
def TaskType.value : TaskType → String
| .PROMOTION_PLANNING => "promotion_planning"
| .TIMELINE_MANAGEMENT => "timeline_management"
| .BUDGET_ALLOCATION => "budget_allocation"
| .NEWS_SCOUTING => "news_scouting"
| .COMPETITOR_ANALYSIS => "competitor_analysis"
| .INGREDIENT_TRENDS => "ingredient_trends"
| .SEASONAL_ANALYSIS => "seasonal_analysis"
| .CHANNEL_STATUS => "channel_status"
| .PRICE_SYNC => "price_sync"
| .INVENTORY_CHECK => "inventory_check"
| .CROSS_CHANNEL => "cross_channel"
| .SENTIMENT_ANALYSIS => "sentiment_analysis"
| .PROMOTION_REVIEW => "promotion_review"
| .BUNDLE_ANALYSIS => "bundle_analysis"
| .MARGIN_CALCULATION => "margin_calculation"
| .STOCKOUT_PREDICTION => "stockout_prediction"
| .INFLUENCER_ROI => "influencer_roi"
| .ATTRIBUTION => "attribution"
| .INVENTORY_MONITORING => "inventory_monitoring"
| .PRICE_MONITORING => "price_monitoring"
| .CHECKLIST_VALIDATION => "checklist_validation"
| .GENERAL_QUERY => "general_query"
| .MULTI_DIVISION => "multi_division"

/-- Python `str.lower()`, modelled as per-character lowering. -/
def pyLower (s : String) : String := ⟨s.data.map Char.toLower⟩

/-- `needle in hay` on Python strings: `needle` occurs contiguously in `hay`. -/
def strHasSub (needle hay : List Char) : Bool :=
  (List.range (hay.length + 1)).any (fun i => needle.isPrefixOf (hay.drop i))

/-- `TASK_KEYWORDS` of `backend/graph/routing.py`, in declaration order. -/
def TASK_KEYWORDS : List (TaskType × List String) :=
[ (.PROMOTION_PLANNING,
   ["plan", "planning", "calendar", "schedule", "campaign", "q1", "q2", "q3", "q4",
    "quarterly", "monthly", "weekly", "annual", "프로모션", "계획", "캠페인"]),
  (.TIMELINE_MANAGEMENT,
   ["timeline", "deadline", "milestone", "due", "when", "reminder", "일정", "마감"]),
  (.BUDGET_ALLOCATION,
   ["budget", "cost", "spend", "allocate", "roi", "예산", "비용", "배분"]),
  (.NEWS_SCOUTING,
   ["news", "trend", "industry", "뉴스", "트렌드", "업계"]),
  (.COMPETITOR_ANALYSIS,
   ["competitor", "competition", "innisfree", "laneige", "etude", "경쟁사", "경쟁"]),
  (.INGREDIENT_TRENDS,
   ["ingredient", "centella", "retinol", "niacinamide", "vitamin", "성분", "레티놀"]),
  (.SEASONAL_ANALYSIS,
   ["seasonal", "season", "summer", "winter", "holiday", "계절", "여름", "겨울"]),
  (.CHANNEL_STATUS,
   ["oliveyoung", "coupang", "naver", "kakao", "channel", "올리브영", "쿠팡", "네이버"]),
  (.PRICE_SYNC,
   ["price sync", "price consistency", "가격 동기화", "가격 일치"]),
  (.SENTIMENT_ANALYSIS,
   ["review", "sentiment", "feedback", "customer opinion", "리뷰", "평점", "고객 의견"]),
  (.PROMOTION_REVIEW,
   ["performance", "analyze promotion", "how did", "결과", "성과", "분석"]),
  (.BUNDLE_ANALYSIS,
   ["bundle", "cross-sell", "upsell", "세트", "번들", "교차판매"]),
  (.MARGIN_CALCULATION,
   ["margin", "profit", "discount level", "마진", "수익", "할인율"]),
  (.STOCKOUT_PREDICTION,
   ["stockout", "stock out", "reorder", "inventory forecast", "재고 부족", "발주"]),
  (.INFLUENCER_ROI,
   ["influencer", "kol", "creator", "인플루언서", "크리에이터"]),
  (.ATTRIBUTION,
   ["attribution", "channel contribution", "기여도", "채널 기여"]),
  (.INVENTORY_MONITORING,
   ["inventory", "stock level", "재고", "재고 현황"]),
  (.PRICE_MONITORING,
   ["price monitor", "map violation", "reseller", "가격 모니터링", "리셀러"]),
  (.CHECKLIST_VALIDATION,
   ["checklist", "validation", "pre-launch", "체크리스트", "검증"]) ]

/-- Score of one keyword list against an already-lowered query:
`sum(1 for kw in keywords if kw.lower() in query_lower)`. -/
def keywordScore (queryLower : String) (kws : List String) : Nat :=
  kws.countP (fun kw => strHasSub (pyLower kw).data queryLower.data)

/-- One step of Python `max(scores, key=lambda x: scores[x])` over an
insertion-ordered association list: the first key attaining the maximal
value wins (replacement only on a strictly greater value). -/
def pyMaxStep (acc : Option (TaskType × Nat)) (p : TaskType × Nat) : Option (TaskType × Nat) :=
  match acc with
  | none => some p
  | some q => if q.2 < p.2 then some p else some q

/-- Python `max(scores, key=...)` over the insertion-ordered `scores` dict,
returning `none` on an empty dict. -/
def pyMax (l : List (TaskType × Nat)) : Option (TaskType × Nat) :=
  l.foldl pyMaxStep none

/-- The `scores` dict built by `classify_task`: the insertion-ordered list of
`(task_type, score)` pairs whose score is nonzero. -/
def taskScores (queryLower : String) : List (TaskType × Nat) :=
  TASK_KEYWORDS.filterMap (fun p =>
    if 0 < keywordScore queryLower p.2 then some (p.1, keywordScore queryLower p.2)
    else none)

/-- `classify_task` of `backend/graph/routing.py`: score each task type by
keyword matches against the lowered query; return the first task type with
the maximal nonzero score, else `GENERAL_QUERY`. -/
def classify_task (query : String) : TaskType :=
  match pyMax (taskScores (pyLower query)) with
  | none => TaskType.GENERAL_QUERY
  | some (t, _) => t

/-- `TASK_TO_DIVISION` of `backend/graph/routing.py`, in declaration order. -/
def TASK_TO_DIVISION : List (TaskType × Division) :=
[ (.PROMOTION_PLANNING, .STRATEGIC_PLANNING),
  (.TIMELINE_MANAGEMENT, .STRATEGIC_PLANNING),
  (.BUDGET_ALLOCATION, .STRATEGIC_PLANNING),
  (.NEWS_SCOUTING, .MARKET_INTELLIGENCE),
  (.COMPETITOR_ANALYSIS, .MARKET_INTELLIGENCE),
  (.INGREDIENT_TRENDS, .MARKET_INTELLIGENCE),
  (.SEASONAL_ANALYSIS, .MARKET_INTELLIGENCE),
  (.CHANNEL_STATUS, .CHANNEL_MANAGEMENT),
  (.PRICE_SYNC, .CHANNEL_MANAGEMENT),
  (.INVENTORY_CHECK, .CHANNEL_MANAGEMENT),
  (.CROSS_CHANNEL, .CHANNEL_MANAGEMENT),
  (.SENTIMENT_ANALYSIS, .ANALYTICS),
  (.PROMOTION_REVIEW, .ANALYTICS),
  (.BUNDLE_ANALYSIS, .ANALYTICS),
  (.MARGIN_CALCULATION, .ANALYTICS),
  (.STOCKOUT_PREDICTION, .ANALYTICS),
  (.INFLUENCER_ROI, .ANALYTICS),
  (.INVENTORY_MONITORING, .OPERATIONS),
  (.PRICE_MONITORING, .OPERATIONS),
  (.CHECKLIST_VALIDATION, .OPERATIONS),
  (.ATTRIBUTION, .ANALYTICS) ]

/-- One branch `A.*B` of a multi-division regex matches the (lowered) query:
an occurrence of `A` followed by a non-overlapping occurrence of `B`, with no
newline in between (Python `.` does not match a newline). -/
def termMatch (a b q : List Char) : Bool :=
  (List.range (q.length + 1)).any (fun i =>
    a.isPrefixOf (q.drop i) &&
    (List.range (q.length + 1)).any (fun j =>
      decide (i + a.length ≤ j) && b.isPrefixOf (q.drop j) &&
      ((q.drop (i + a.length)).take (j - (i + a.length))).all (fun c => c != '\n')))

/-- `re.search` of an alternation of `A.*B` branches against the query. -/
def reSearch (branches : List (String × String)) (q : String) : Bool :=
  branches.any (fun t => termMatch t.1.data t.2.data q.data)

/-- One entry of `MULTI_DIVISION_PATTERNS`: a regex (an alternation of
`A.*B` branches), its division list and its description. -/
structure PatternConfig where
  pattern : List (String × String)
  divisions : List Division
  description : String
deriving DecidableEq

/-- `MULTI_DIVISION_PATTERNS` of `backend/graph/routing.py`, in order. -/
def MULTI_DIVISION_PATTERNS : List PatternConfig :=
[ { pattern := [("plan", "promotion"), ("promotion", "plan"),
                ("캠페인", "계획"), ("계획", "캠페인")],
    divisions := [.STRATEGIC_PLANNING, .MARKET_INTELLIGENCE,
                  .CHANNEL_MANAGEMENT, .ANALYTICS],
    description := "Full promotion planning workflow" },
  { pattern := [("launch", "check"), ("pre", "launch"),
                ("런칭", "체크"), ("사전", "검토")],
    divisions := [.OPERATIONS, .CHANNEL_MANAGEMENT],
    description := "Pre-launch validation" },
  { pattern := [("analyze", "channel"), ("channel", "performance"),
                ("채널", "분석"), ("성과", "분석")],
    divisions := [.CHANNEL_MANAGEMENT, .ANALYTICS],
    description := "Channel performance analysis" } ]

/-- `determine_divisions` of `backend/graph/routing.py`: first matching
multi-division pattern wins; otherwise the static single-division table;
otherwise the empty list. -/
def determine_divisions (query : String) (task_type : TaskType) : List Division :=
  match MULTI_DIVISION_PATTERNS.find? (fun pc => reSearch pc.pattern (pyLower query)) with
  | some pc => pc.divisions
  | none =>
    match TASK_TO_DIVISION.lookup task_type with
    | some d => [d]
    | none => []

/-- `determine_model_tier` of `backend/graph/routing.py`. -/
def determine_model_tier (task_type : TaskType) (query : String) : String :=
  if task_type ∈ [TaskType.INVENTORY_MONITORING, TaskType.CHANNEL_STATUS] then
    "tier1_free"
  else if task_type ∈ [TaskType.PRICE_MONITORING, TaskType.CHECKLIST_VALIDATION] then
    "tier2_cheap"
  else if query.length < 50 ∧
      task_type ∉ [TaskType.PROMOTION_PLANNING, TaskType.MULTI_DIVISION] then
    "tier2_cheap"
  else
    "tier3_full"

/-- A conversation message (`HumanMessage` / `AIMessage`). -/
inductive Message where
| human (content : String)
| ai (content : String)
deriving DecidableEq

/-- `message.content`. -/
def Message.content : Message → String
| .human c => c
| .ai c => c

/-- The result dict produced by a division supervisor node:
`{"division": ..., "status": ..., "summary": ...}`. -/
structure DivResult where
  division : String
  status : String
  summary : String
deriving DecidableEq

/-- `PromotorStateDict` of `backend/graph/state.py` (the fields the
orchestration graph reads or writes).  `division_results` is the
insertion-ordered dict as an association list with unique keys;
`error = none` stands for an absent or `None` error.  The `cache_key`
stores the `(brand_id, task_type.value, query)` triple, standing in for
the Python f-string built with the process-randomized `hash(query)`. -/
structure PState where
  messages : List Message
  current_division : Option String
  current_agent : Option String
  user_id : String
  brand_id : Option String
  task_type : String
  division_results : List (String × DivResult)
  next_divisions : List String
  completed_divisions : List String
  use_mini_model : Bool
  cache_key : Option (String × String × String)
  error : Option String
  retry_count : Nat
deriving DecidableEq

/-- Python truthiness of an optional string (`if error:`). -/
def pyTruthyStr : Option String → Bool
| none => false
| some s => !s.data.isEmpty

/-- Python `str.title()` step: `prevAlpha` records whether the previous
character was alphabetic (a word continues). -/
def pyTitleAux : Bool → List Char → List Char
| _, [] => []
| prevAlpha, c :: rest =>
  (if c.isAlpha then (if prevAlpha then c.toLower else c.toUpper) else c)
    :: pyTitleAux c.isAlpha rest

/-- `division_name.replace("_", " ").title()` as used for section titles. -/
def pyTitleName (s : String) : String :=
  ⟨pyTitleAux false (s.data.map (fun c => if c = '_' then ' ' else c))⟩

/-- Python dict update `{**l, k: v}`: replace in place when the key exists,
else append at the end. -/
def dictInsert (k : String) (v : DivResult) (l : List (String × DivResult)) :
    List (String × DivResult) :=
  if k ∈ l.map Prod.fst then
    l.map (fun p => if p.1 = k then (k, v) else p)
  else l ++ [(k, v)]

/-- `chief_coordinator` node of `backend/graph/main_graph.py`: classify the
last message, populate routing and tier metadata; with no messages, set the
error and change nothing else.  (Under the `add_messages` reducer,
returning the state's own message list leaves `messages` unchanged.) -/
def chief_coordinator (s : PState) : PState :=
  match s.messages.getLast? with
  | none => { s with error := some "No messages to process" }
  | some last_message =>
    let query := last_message.content
    let task_type := classify_task query
    let divisions := determine_divisions query task_type
    let model_tier := determine_model_tier task_type query
    let use_mini_model := model_tier == "tier2_cheap"
    { s with
      task_type := task_type.value,
      next_divisions := divisions.map Division.value,
      use_mini_model := use_mini_model,
      cache_key := some (s.brand_id.getD "default", task_type.value, query),
      current_division := none,
      current_agent := some "chief_coordinator" }

/-- One aggregator section: `f"**{name.replace('_',' ').title()}**: {summary}"`
(division results are dicts carrying a `"summary"` key). -/
def sectionFor (p : String × DivResult) : String :=
  "**" ++ pyTitleName p.1 ++ "**: " ++ p.2.summary

/-- `response_aggregator` node of `backend/graph/main_graph.py`: one section
per division result in insertion order, joined by blank lines; the result is
appended as a new assistant message by the `add_messages` reducer. -/
def response_aggregator (s : PState) : PState :=
  let division_results := s.division_results
  let response_parts :=
    if division_results.isEmpty then
      ["I\x27ve processed your request but no specific division results were generated."]
    else division_results.map sectionFor
  let aggregated_response := String.intercalate "\n\n" response_parts
  { s with
    messages := s.messages ++ [.ai aggregated_response],
    current_agent := some "response_aggregator" }

/-- `error_handler` node of `backend/graph/main_graph.py`: renders the stored
error with the fixed template, appended as a new assistant message. -/
def error_handler (s : PState) : PState :=
  let error := s.error.getD "Unknown error occurred"
  let error_message := "An error occurred while processing your request: " ++ error
  { s with
    messages := s.messages ++ [.ai error_message],
    current_agent := some "error_handler" }

/-- `division_supervisor` node (from `create_division_supervisor_node`):
records the division's result dict and appends the division to
`completed_divisions` when absent. -/
def division_supervisor (division : Division) (s : PState) : PState :=
  let division_name := division.value
  let result : DivResult :=
    { division := division_name,
      status := "processed",
      summary := pyTitleName division_name ++ " division has processed the request." }
  let updated_results := dictInsert division_name result s.division_results
  let completed :=
    if division_name ∈ s.completed_divisions then s.completed_divisions
    else s.completed_divisions ++ [division_name]
  { s with
    current_division := some division_name,
    division_results := updated_results,
    completed_divisions := completed }

/-- `route_from_coordinator` of `backend/graph/main_graph.py`. -/
def route_from_coordinator (s : PState) : String :=
  if pyTruthyStr s.error then "error_handler"
  else if s.next_divisions.isEmpty then "response_aggregator"
  else s.next_divisions.headD "" ++ "_supervisor"

/-- The pending divisions: `[d for d in next_divisions if d not in completed]`. -/
def pendingOf (s : PState) : List String :=
  s.next_divisions.filter (fun d => decide (d ∉ s.completed_divisions))

/-- `route_from_division` of `backend/graph/main_graph.py`: next pending
division's supervisor, else the aggregator.  It does not consult `error`. -/
def route_from_division (s : PState) : String :=
  let pending := pendingOf s
  if pending.isEmpty then "response_aggregator"
  else pending.headD "" ++ "_supervisor"

/-- `route_to_next` of `backend/graph/routing.py` (a routing helper that is
not wired into the compiled graph): errors first, then the aggregator when
nothing is pending, then one or several pending supervisors. -/
def route_to_next (s : PState) : String ⊕ List String :=
  if pyTruthyStr s.error then .inl "error_handler"
  else if s.next_divisions.isEmpty
      || s.next_divisions.all (fun d => s.completed_divisions.contains d) then
    .inl "response_aggregator"
  else
    let pending := pendingOf s
    if pending.length = 1 then .inl (pending.headD "" ++ "_supervisor")
    else .inr (pending.map (fun d => d ++ "_supervisor"))

/-- The terminal node name (`END` of LangGraph). -/
def ENDNODE : String := "__end__"

/-- The five registered division-supervisor node names. -/
def supervisorNames : List String :=
  ["strategic_planning_supervisor", "market_intelligence_supervisor",
   "channel_management_supervisor", "analytics_supervisor", "operations_supervisor"]

/-- Run one named node of the compiled graph on a state. -/
def nodeRun (name : String) (s : PState) : PState :=
  if name = "chief_coordinator" then chief_coordinator s
  else if name = "response_aggregator" then response_aggregator s
  else if name = "error_handler" then error_handler s
  else if name = "strategic_planning_supervisor" then
    division_supervisor .STRATEGIC_PLANNING s
  else if name = "market_intelligence_supervisor" then
    division_supervisor .MARKET_INTELLIGENCE s
  else if name = "channel_management_supervisor" then
    division_supervisor .CHANNEL_MANAGEMENT s
  else if name = "analytics_supervisor" then
    division_supervisor .ANALYTICS s
  else if name = "operations_supervisor" then
    division_supervisor .OPERATIONS s
  else s

/-- The conditional edge leaving a node, evaluated on the post-node state
(as `create_main_graph` wires it): the coordinator uses
`route_from_coordinator`, each supervisor uses `route_from_division`, the
aggregator and the error handler go to `END`. -/
def nextNodeName (name : String) (s : PState) : String :=
  if name = "chief_coordinator" then route_from_coordinator s
  else if name ∈ supervisorNames then route_from_division s
  else ENDNODE

/-- One step of the compiled graph: run the current node, then follow its
conditional edge; the terminal configuration is a fixed point. -/
def stepG (c : String × PState) : String × PState :=
  if c.1 = ENDNODE then c
  else
    let s := nodeRun c.1 c.2
    (nextNodeName c.1 s, s)

/-- Run the compiled graph for at most `n` node steps. -/
def runG : Nat → String × PState → String × PState
| 0, c => c
| n + 1, c => runG n (stepG c)

/-! ## Helper lemmas on the classifier's argmax -/

/-- The maximal value in a score list (0 when empty). -/
def maxVal (l : List (TaskType × Nat)) : Nat :=
  l.foldr (fun p m => max p.2 m) 0

/-- The maximal keyword score over the whole keyword table. -/
def specMaxScore (queryLower : String) : Nat :=
  TASK_KEYWORDS.foldr (fun p m => max (keywordScore queryLower p.2) m) 0

lemma mem_le_maxVal {l : List (TaskType × Nat)} {p : TaskType × Nat}
    (h : p ∈ l) : p.2 ≤ maxVal l := by
  induction l with
  | nil => cases h
  | cons x t ih =>
    rcases List.mem_cons.mp h with rfl | h
    · exact Nat.le_max_left _ _
    · exact le_trans (ih h) (Nat.le_max_right _ _)

lemma pyMax_go_le {l : List (TaskType × Nat)} {b : TaskType × Nat}
    (h : maxVal l ≤ b.2) : l.foldl pyMaxStep (some b) = some b := by
  induction l generalizing b with
  | nil => rfl
  | cons x t ih =>
    have hx : x.2 ≤ b.2 := le_trans (Nat.le_max_left _ _) h
    have ht : maxVal t ≤ b.2 := le_trans (Nat.le_max_right _ _) h
    simp only [List.foldl_cons, pyMaxStep, if_neg (Nat.not_lt.mpr hx)]
    exact ih ht

lemma pyMax_go_gt {l : List (TaskType × Nat)} {b : TaskType × Nat}
    (h : b.2 < maxVal l) :
    ∃ p, l.find? (fun q => q.2 == maxVal l) = some p ∧
      l.foldl pyMaxStep (some b) = some p := by
  induction l generalizing b with
  | nil => simp [maxVal] at h
  | cons x t ih =>
    have hmax : maxVal (x :: t) = max x.2 (maxVal t) := rfl
    by_cases hx : b.2 < x.2
    · simp only [List.foldl_cons, pyMaxStep, if_pos hx]
      by_cases ht : maxVal t ≤ x.2
      · have hm : maxVal (x :: t) = x.2 := by
          rw [hmax]; exact Nat.max_eq_left ht
        refine ⟨x, ?_, pyMax_go_le ht⟩
        exact List.find?_cons_of_pos _ (by simp [hm])
      · push_neg at ht
        have hm : maxVal (x :: t) = maxVal t := by
          rw [hmax]; exact Nat.max_eq_right (le_of_lt ht)
        obtain ⟨p, hfind, hfold⟩ := ih (b := x) ht
        refine ⟨p, ?_, hfold⟩
        rw [List.find?_cons_of_neg _ (by simp [hm]; omega), hm]
        exact hfind
    · push_neg at hx
      have ht : b.2 < maxVal t := by
        rw [hmax] at h
        rcases lt_max_iff.mp h with h' | h'
        · omega
        · exact h'
      have hm : maxVal (x :: t) = maxVal t := by
        rw [hmax]; exact Nat.max_eq_right (le_of_lt (lt_of_le_of_lt hx ht))
      simp only [List.foldl_cons, pyMaxStep, if_neg (Nat.not_lt.mpr hx)]
      obtain ⟨p, hfind, hfold⟩ := ih (b := b) ht
      refine ⟨p, ?_, hfold⟩
      rw [List.find?_cons_of_neg _ (by simp [hm]; omega), hm]
      exact hfind

/-- `pyMax` of a nonempty score list is the first entry attaining the
maximal value. -/
lemma pyMax_spec {l : List (TaskType × Nat)} (hl : l ≠ []) :
    ∃ p, l.find? (fun q => q.2 == maxVal l) = some p ∧ pyMax l = some p := by
  match l with
  | x :: t =>
    have hstep : pyMax (x :: t) = t.foldl pyMaxStep (some x) := rfl
    have hmax : maxVal (x :: t) = max x.2 (maxVal t) := rfl
    by_cases ht : maxVal t ≤ x.2
    · have hm : maxVal (x :: t) = x.2 := by
        rw [hmax]; exact Nat.max_eq_left ht
      refine ⟨x, ?_, ?_⟩
      · exact List.find?_cons_of_pos _ (by simp [hm])
      · rw [hstep]; exact pyMax_go_le ht
    · push_neg at ht
      have hm : maxVal (x :: t) = maxVal t := by
        rw [hmax]; exact Nat.max_eq_right (le_of_lt ht)
      obtain ⟨p, hfind, hfold⟩ := pyMax_go_gt (b := x) ht
      refine ⟨p, ?_, by rw [hstep]; exact hfold⟩
      rw [List.find?_cons_of_neg _ (by simp [hm]; omega), hm]
      exact hfind

lemma maxVal_taskScores (ql : String) : maxVal (taskScores ql) = specMaxScore ql := by
  unfold taskScores specMaxScore maxVal
  induction TASK_KEYWORDS with
  | nil => rfl
  | cons a t ih =>
    by_cases h : 0 < keywordScore ql a.2
    · rw [List.filterMap_cons_some (by rw [if_pos h])]
      simp only [List.foldr_cons, ih]
    · have h0 : keywordScore ql a.2 = 0 := by omega
      rw [List.filterMap_cons_none (by rw [if_neg h]), ih, List.foldr_cons, h0,
        Nat.zero_max]

lemma taskScores_pos {ql : String} {p : TaskType × Nat} (h : p ∈ taskScores ql) :
    0 < p.2 := by
  unfold taskScores at h
  obtain ⟨a, _, ha⟩ := List.mem_filterMap.mp h
  split at ha
  · cases ha; assumption
  · cases ha

lemma find_taskScores {ql : String} {M : Nat} (hM : 0 < M) :
    (taskScores ql).find? (fun q => q.2 == M)
      = (TASK_KEYWORDS.find? (fun p => keywordScore ql p.2 == M)).map
          (fun p => (p.1, keywordScore ql p.2)) := by
  unfold taskScores
  induction TASK_KEYWORDS with
  | nil => rfl
  | cons a t ih =>
    by_cases h : 0 < keywordScore ql a.2
    · simp only [List.filterMap_cons, if_pos h]
      by_cases hm : keywordScore ql a.2 = M
      · rw [List.find?_cons_of_pos _ (by simp [hm]),
          List.find?_cons_of_pos _ (by simp [hm])]
        simp
      · rw [List.find?_cons_of_neg _ (by simp [hm]),
          List.find?_cons_of_neg _ (by simp [hm])]
        exact ih
    · have h0 : keywordScore ql a.2 = 0 := by omega
      simp only [List.filterMap_cons, if_neg h]
      rw [List.find?_cons_of_neg _ (by simp [h0]; omega)]
      exact ih

/-- The classifier as the spec states it: the first-declared task category
among those attaining the maximal keyword-match score, or the default
`GENERAL_QUERY` category when no category scores above zero. -/
def classifyTaskSpec (query : String) : TaskType :=
  if specMaxScore (pyLower query) = 0 then TaskType.GENERAL_QUERY
  else
    match TASK_KEYWORDS.find? (fun p =>
        keywordScore (pyLower query) p.2 == specMaxScore (pyLower query)) with
    | some p => p.1
    | none => TaskType.GENERAL_QUERY

/-- C1: `classify_task` returns the first-declared category with the maximal
keyword-match score, or the general-query default when all scores are zero. -/
theorem classify_task_first_max (query : String) :
    classify_task query = classifyTaskSpec query := by
  unfold classify_task classifyTaskSpec
  cases hts : taskScores (pyLower query) with
  | nil =>
    have hM : specMaxScore (pyLower query) = 0 := by
      rw [← maxVal_taskScores, hts]; rfl
    simp [pyMax, hM]
  | cons x t =>
    obtain ⟨p, hfind, hmax⟩ := pyMax_spec (l := x :: t) (by simp)
    have hmem : p ∈ taskScores (pyLower query) := by
      rw [hts]; exact List.mem_of_find?_eq_some hfind
    have hpos : 0 < p.2 := taskScores_pos hmem
    have hMv : maxVal (x :: t) = specMaxScore (pyLower query) := by
      rw [← hts, maxVal_taskScores]
    have hM0 : 0 < specMaxScore (pyLower query) := by
      have := mem_le_maxVal (l := x :: t) (by rw [← hts]; exact hmem)
      omega
    have hfind' : (taskScores (pyLower query)).find?
        (fun q => q.2 == specMaxScore (pyLower query)) = some p := by
      rw [hts, ← hMv]; exact hfind
    rw [find_taskScores hM0] at hfind'
    rw [hmax]
    obtain ⟨p0, hp0, hp0e⟩ := Option.map_eq_some'.mp hfind'
    rw [if_neg (by omega), hp0]
    obtain ⟨t', s'⟩ := p
    cases hp0e
    rfl

/-- C10: `classify_task` never returns `INVENTORY_CHECK` or `CROSS_CHANNEL`
(they own no keyword list): its result is always a keyword-owning category
or the `GENERAL_QUERY` default, while the static routing table does map the
two unreachable task types to the channel-management division. -/
theorem classify_task_unreachable_types (query : String) :
    classify_task query ≠ TaskType.INVENTORY_CHECK
    ∧ classify_task query ≠ TaskType.CROSS_CHANNEL
    ∧ (classify_task query = TaskType.GENERAL_QUERY
        ∨ classify_task query ∈ TASK_KEYWORDS.map Prod.fst)
    ∧ TASK_TO_DIVISION.lookup TaskType.INVENTORY_CHECK
        = some Division.CHANNEL_MANAGEMENT
    ∧ TASK_TO_DIVISION.lookup TaskType.CROSS_CHANNEL
        = some Division.CHANNEL_MANAGEMENT := by
  have hres : classify_task query = TaskType.GENERAL_QUERY
      ∨ classify_task query ∈ TASK_KEYWORDS.map Prod.fst := by
    unfold classify_task
    cases hts : taskScores (pyLower query) with
    | nil => left; simp [pyMax]
    | cons x t =>
      obtain ⟨p, hfind, hmax⟩ := pyMax_spec (l := x :: t) (by simp)
      right
      rw [hmax]
      have hmem : p ∈ taskScores (pyLower query) := by
        rw [hts]; exact List.mem_of_find?_eq_some hfind
      unfold taskScores at hmem
      obtain ⟨a, hamem, ha⟩ := List.mem_filterMap.mp hmem
      split at ha
      · cases ha
        exact List.mem_map.mpr ⟨a, hamem, rfl⟩
      · cases ha
  have hnotin : TaskType.INVENTORY_CHECK ∉ TASK_KEYWORDS.map Prod.fst
      ∧ TaskType.CROSS_CHANNEL ∉ TASK_KEYWORDS.map Prod.fst := by decide
  refine ⟨?_, ?_, hres, by decide, by decide⟩
  · intro h
    rcases hres with h' | h'
    · rw [h] at h'; cases h'
    · exact hnotin.1 (h ▸ h')
  · intro h
    rcases hres with h' | h'
    · rw [h] at h'; cases h'
    · exact hnotin.2 (h ▸ h')

/-! ## C2, C4, C9 -/

/-- C2: `determine_divisions` returns the division list of the first
multi-division pattern (in declared order) matching the lower-cased query;
with no match, the singleton of the static table entry when present, else
the empty list; the result never contains a duplicate division (declared
pattern/table order is preserved by construction of `List.find?`). -/
theorem determine_divisions_first_pattern (query : String) (task_type : TaskType) :
    (∀ pc, MULTI_DIVISION_PATTERNS.find?
        (fun pc => reSearch pc.pattern (pyLower query)) = some pc →
      determine_divisions query task_type = pc.divisions)
    ∧ (MULTI_DIVISION_PATTERNS.find?
        (fun pc => reSearch pc.pattern (pyLower query)) = none →
      determine_divisions query task_type =
        (match TASK_TO_DIVISION.lookup task_type with
         | some d => [d]
         | none => []))
    ∧ (determine_divisions query task_type).Nodup := by
  refine ⟨?_, ?_, ?_⟩
  · intro pc hpc
    unfold determine_divisions
    rw [hpc]
  · intro hnone
    unfold determine_divisions
    rw [hnone]
  · unfold determine_divisions
    cases hf : MULTI_DIVISION_PATTERNS.find?
        (fun pc => reSearch pc.pattern (pyLower query)) with
    | some pc =>
      have hmem : pc ∈ MULTI_DIVISION_PATTERNS := List.mem_of_find?_eq_some hf
      have hall : ∀ pc ∈ MULTI_DIVISION_PATTERNS, pc.divisions.Nodup := by decide
      exact hall pc hmem
    | none =>
      cases TASK_TO_DIVISION.lookup task_type with
      | some d => simp
      | none => simp

/-- Witness for C2's conditional parts at a concrete multi-division query. -/
theorem determine_divisions_first_pattern_witness :
    determine_divisions "plan this promotion" TaskType.GENERAL_QUERY =
      [Division.STRATEGIC_PLANNING, Division.MARKET_INTELLIGENCE,
       Division.CHANNEL_MANAGEMENT, Division.ANALYTICS] :=
  (determine_divisions_first_pattern "plan this promotion" TaskType.GENERAL_QUERY).1
    { pattern := [("plan", "promotion"), ("promotion", "plan"),
                  ("캠페인", "계획"), ("계획", "캠페인")],
      divisions := [.STRATEGIC_PLANNING, .MARKET_INTELLIGENCE,
                    .CHANNEL_MANAGEMENT, .ANALYTICS],
      description := "Full promotion planning workflow" }
    (by decide)

/-- C4: the model-tier policy rules are applied in order with first match
winning: the fixed no-model set, then the fixed cheap set, then the short
query heuristic unless the category is always expensive, else full model. -/
theorem determine_model_tier_policy (t : TaskType) (q : String) :
    (t ∈ [TaskType.INVENTORY_MONITORING, TaskType.CHANNEL_STATUS] →
      determine_model_tier t q = "tier1_free")
    ∧ (t ∉ [TaskType.INVENTORY_MONITORING, TaskType.CHANNEL_STATUS] →
       t ∈ [TaskType.PRICE_MONITORING, TaskType.CHECKLIST_VALIDATION] →
      determine_model_tier t q = "tier2_cheap")
    ∧ (t ∉ [TaskType.INVENTORY_MONITORING, TaskType.CHANNEL_STATUS] →
       t ∉ [TaskType.PRICE_MONITORING, TaskType.CHECKLIST_VALIDATION] →
       q.length < 50 →
       t ∉ [TaskType.PROMOTION_PLANNING, TaskType.MULTI_DIVISION] →
      determine_model_tier t q = "tier2_cheap")
    ∧ (t ∉ [TaskType.INVENTORY_MONITORING, TaskType.CHANNEL_STATUS] →
       t ∉ [TaskType.PRICE_MONITORING, TaskType.CHECKLIST_VALIDATION] →
       ¬(q.length < 50 ∧
          t ∉ [TaskType.PROMOTION_PLANNING, TaskType.MULTI_DIVISION]) →
      determine_model_tier t q = "tier3_full") := by
  unfold determine_model_tier
  refine ⟨fun h1 => ?_, fun h1 h2 => ?_, fun h1 h2 h3 h4 => ?_, fun h1 h2 h3 => ?_⟩
  · rw [if_pos h1]
  · rw [if_neg h1, if_pos h2]
  · rw [if_neg h1, if_neg h2, if_pos ⟨h3, h4⟩]
  · rw [if_neg h1, if_neg h2, if_neg h3]

/-- Witness for C4 at concrete inputs covering each rule. -/
theorem determine_model_tier_policy_witness :
    determine_model_tier TaskType.INVENTORY_MONITORING "check inventory"
        = "tier1_free"
    ∧ determine_model_tier TaskType.CHECKLIST_VALIDATION "validate checklist"
        = "tier2_cheap"
    ∧ determine_model_tier TaskType.GENERAL_QUERY "hi" = "tier2_cheap"
    ∧ determine_model_tier TaskType.PROMOTION_PLANNING "plan" = "tier3_full" :=
  ⟨(determine_model_tier_policy TaskType.INVENTORY_MONITORING
      "check inventory").1 (by decide),
   (determine_model_tier_policy TaskType.CHECKLIST_VALIDATION
      "validate checklist").2.1 (by decide) (by decide),
   (determine_model_tier_policy TaskType.GENERAL_QUERY
      "hi").2.2.1 (by decide) (by decide) (by decide) (by decide),
   (determine_model_tier_policy TaskType.PROMOTION_PLANNING
      "plan").2.2.2 (by decide) (by decide) (by decide)⟩

/-- A concrete coordinator input whose query classifies into the no-model
tier (`tier1_free`). -/
def tier1State : PState :=
  { messages := [.human "check inventory"], current_division := none,
    current_agent := none, user_id := "u", brand_id := some "b",
    task_type := "general_query", division_results := [], next_divisions := [],
    completed_divisions := [], use_mini_model := true, cache_key := none,
    error := none, retry_count := 0 }

/-- A concrete coordinator input whose query classifies into the full-model
tier (`tier3_full`). -/
def tier3State : PState :=
  { tier1State with messages := [.human "plan"] }

/-- C9: the coordinator records of the chosen model tier only the boolean
`use_mini_model`, true exactly when `determine_model_tier` returned
`"tier2_cheap"`; a no-model input and a full-model input yield the same
recorded tier information (`use_mini_model = false`), the state carrying no
other tier field. -/
theorem coordinator_records_only_mini_flag (s : PState) (m : Message)
    (hm : s.messages.getLast? = some m) :
    ((chief_coordinator s).use_mini_model
      = (determine_model_tier (classify_task m.content) m.content == "tier2_cheap"))
    ∧ determine_model_tier (classify_task "check inventory") "check inventory"
        = "tier1_free"
    ∧ determine_model_tier (classify_task "plan") "plan" = "tier3_full"
    ∧ (chief_coordinator tier1State).use_mini_model = false
    ∧ (chief_coordinator tier3State).use_mini_model = false := by
  refine ⟨?_, by decide, by decide, by decide, by decide⟩
  unfold chief_coordinator
  rw [hm]

/-- Witness for C9 at a concrete input state. -/
theorem coordinator_records_only_mini_flag_witness :
    (chief_coordinator tier1State).use_mini_model
      = (determine_model_tier (classify_task "check inventory") "check inventory"
          == "tier2_cheap") :=
  (coordinator_records_only_mini_flag tier1State (.human "check inventory")
    (by decide)).1

/-! ## Step lemmas for the orchestration graph -/

lemma runG_succ (n : Nat) (c : String × PState) :
    runG (n + 1) c = runG n (stepG c) := rfl

lemma stepG_end (s : PState) : stepG (ENDNODE, s) = (ENDNODE, s) := rfl

lemma runG_end (n : Nat) (s : PState) : runG n (ENDNODE, s) = (ENDNODE, s) := by
  induction n with
  | zero => rfl
  | succ n ih => rw [runG_succ, stepG_end]; exact ih

lemma stepG_node {name : String} (s : PState) (h : ¬ name = ENDNODE) :
    stepG (name, s) = (nextNodeName name (nodeRun name s), nodeRun name s) := by
  simp [stepG, h]

lemma nodeRun_coordinator (s : PState) :
    nodeRun "chief_coordinator" s = chief_coordinator s := rfl

lemma nodeRun_aggregator (s : PState) :
    nodeRun "response_aggregator" s = response_aggregator s := rfl

lemma nodeRun_error (s : PState) :
    nodeRun "error_handler" s = error_handler s := rfl

lemma nodeRun_supervisor (d : Division) (s : PState) :
    nodeRun (d.value ++ "_supervisor") s = division_supervisor d s := by
  cases d <;> rfl

lemma nextNodeName_coordinator (s : PState) :
    nextNodeName "chief_coordinator" s = route_from_coordinator s := rfl

lemma nextNodeName_aggregator (s : PState) :
    nextNodeName "response_aggregator" s = ENDNODE := rfl

lemma nextNodeName_error (s : PState) :
    nextNodeName "error_handler" s = ENDNODE := rfl

lemma nextNodeName_supervisor (d : Division) (s : PState) :
    nextNodeName (d.value ++ "_supervisor") s = route_from_division s := by
  cases d <;> rfl

lemma supervisor_name_ne_end (d : Division) :
    ¬ (d.value ++ "_supervisor") = ENDNODE := by
  cases d <;> decide

/-! ### Field projections of the node functions -/

lemma chief_coordinator_of_getLast_none {s : PState}
    (h : s.messages.getLast? = none) :
    chief_coordinator s = { s with error := some "No messages to process" } := by
  unfold chief_coordinator
  rw [h]

lemma chief_coordinator_next {s : PState} {m : Message}
    (h : s.messages.getLast? = some m) :
    (chief_coordinator s).next_divisions
      = (determine_divisions m.content (classify_task m.content)).map
          Division.value := by
  unfold chief_coordinator
  rw [h]

lemma chief_coordinator_error {s : PState} {m : Message}
    (h : s.messages.getLast? = some m) :
    (chief_coordinator s).error = s.error := by
  unfold chief_coordinator
  rw [h]

lemma chief_coordinator_completed (s : PState) :
    (chief_coordinator s).completed_divisions = s.completed_divisions := by
  unfold chief_coordinator
  cases s.messages.getLast? <;> rfl

lemma chief_coordinator_results (s : PState) :
    (chief_coordinator s).division_results = s.division_results := by
  unfold chief_coordinator
  cases s.messages.getLast? <;> rfl

lemma chief_coordinator_messages (s : PState) :
    (chief_coordinator s).messages = s.messages := by
  unfold chief_coordinator
  cases s.messages.getLast? <;> rfl

lemma division_supervisor_next (d : Division) (s : PState) :
    (division_supervisor d s).next_divisions = s.next_divisions := rfl

lemma division_supervisor_completed (d : Division) (s : PState) :
    (division_supervisor d s).completed_divisions
      = if d.value ∈ s.completed_divisions then s.completed_divisions
        else s.completed_divisions ++ [d.value] := rfl

lemma division_supervisor_results (d : Division) (s : PState) :
    (division_supervisor d s).division_results
      = dictInsert d.value
          { division := d.value, status := "processed",
            summary := pyTitleName d.value
              ++ " division has processed the request." }
          s.division_results := rfl

lemma division_supervisor_error (d : Division) (s : PState) :
    (division_supervisor d s).error = s.error := rfl

lemma division_supervisor_messages (d : Division) (s : PState) :
    (division_supervisor d s).messages = s.messages := rfl

/-- Running a division's supervisor removes exactly that division's name
from the pending list. -/
lemma pendingOf_supervisor (d : Division) (s : PState) :
    pendingOf (division_supervisor d s)
      = (pendingOf s).filter (fun y => decide (y ≠ d.value)) := by
  unfold pendingOf
  rw [division_supervisor_next, division_supervisor_completed]
  by_cases hv : d.value ∈ s.completed_divisions
  · rw [if_pos hv, List.filter_filter]
    refine List.filter_congr ?_
    intro y hy
    by_cases hyc : y ∈ s.completed_divisions
    · simp [hyc]
    · have hyv : y ≠ d.value := fun h => hyc (h ▸ hv)
      simp [hyc, hyv]
  · rw [if_neg hv, List.filter_filter]
    refine List.filter_congr ?_
    intro y hy
    by_cases hyc : y ∈ s.completed_divisions
    · simp [hyc, List.mem_append]
    · by_cases hyv : y = d.value
      · simp [hyv, List.mem_append]
      · simp [hyc, hyv, List.mem_append]

/-- Every name in the pending list is a name of the `next_divisions` list. -/
lemma pendingOf_subset_next (s : PState) :
    ∀ y ∈ pendingOf s, y ∈ s.next_divisions := by
  intro y hy
  exact (List.mem_filter.mp hy).1

/-- After a supervisor visits the head of the pending list, at most the tail
remains pending. -/
lemma pending_length_after {d : Division} {s : PState} {rest : List String}
    (hp : pendingOf s = d.value :: rest) :
    (pendingOf (division_supervisor d s)).length ≤ rest.length := by
  rw [pendingOf_supervisor, hp, List.filter_cons, if_neg (by simp)]
  exact List.length_filter_le _ _

lemma runG_add_two (k : Nat) (c : String × PState) :
    runG (k + 2) c = runG k (stepG (stepG c)) := rfl

lemma runG_succ' (n : Nat) (c : String × PState) :
    runG (n + 2) c = runG (n + 1) (stepG c) := rfl

lemma route_from_division_empty {s : PState} (h : pendingOf s = []) :
    route_from_division s = "response_aggregator" := by
  unfold route_from_division
  rw [h]
  rfl

lemma route_from_division_cons {s : PState} {x : String} {rest : List String}
    (h : pendingOf s = x :: rest) :
    route_from_division s = x ++ "_supervisor" := by
  unfold route_from_division
  rw [h]
  rfl

lemma route_from_coordinator_error {s : PState}
    (h : pyTruthyStr s.error = true) :
    route_from_coordinator s = "error_handler" := by
  unfold route_from_coordinator
  rw [if_pos h]

lemma route_from_coordinator_empty {s : PState}
    (he : pyTruthyStr s.error = false) (h : s.next_divisions = []) :
    route_from_coordinator s = "response_aggregator" := by
  unfold route_from_coordinator
  rw [he, h]
  rfl

lemma route_from_coordinator_cons {s : PState} {x : String} {rest : List String}
    (he : pyTruthyStr s.error = false) (h : s.next_divisions = x :: rest) :
    route_from_coordinator s = x ++ "_supervisor" := by
  unfold route_from_coordinator
  rw [he, h]
  rfl

/-- From any division-supervisor node whose post-step pending list has at
most `k` names (all of them division values), the graph reaches the
terminal within `k + 2` further node steps. -/
lemma run_from_supervisor (k : Nat) :
    ∀ (d : Division) (s : PState),
    (∀ x ∈ s.next_divisions, ∃ e : Division, x = e.value) →
    (pendingOf (division_supervisor d s)).length ≤ k →
    (runG (k + 2) (d.value ++ "_supervisor", s)).1 = ENDNODE := by
  induction k with
  | zero =>
    intro d s hvalid hlen
    have hpend : pendingOf (division_supervisor d s) = [] :=
      List.eq_nil_of_length_eq_zero (Nat.le_zero.mp hlen)
    rw [runG_add_two, stepG_node s (supervisor_name_ne_end d), nodeRun_supervisor,
      nextNodeName_supervisor, route_from_division_empty hpend,
      stepG_node _ (by decide), nextNodeName_aggregator]
    rfl
  | succ k ih =>
    intro d s hvalid hlen
    cases hpend : pendingOf (division_supervisor d s) with
    | nil =>
      rw [runG_add_two, stepG_node s (supervisor_name_ne_end d), nodeRun_supervisor,
        nextNodeName_supervisor, route_from_division_empty hpend,
        stepG_node _ (by decide), nextNodeName_aggregator, runG_end]
    | cons x rest =>
      have hx : x ∈ pendingOf (division_supervisor d s) := by
        rw [hpend]; exact List.mem_cons_self _ _
      have hx' : x ∈ s.next_divisions := by
        have h := pendingOf_subset_next (division_supervisor d s) x hx
        rwa [division_supervisor_next] at h
      obtain ⟨e, rfl⟩ := hvalid x hx'
      rw [runG_succ', stepG_node s (supervisor_name_ne_end d), nodeRun_supervisor,
        nextNodeName_supervisor, route_from_division_cons hpend]
      show (runG (k + 2) (e.value ++ "_supervisor", division_supervisor d s)).1
        = ENDNODE
      apply ih e (division_supervisor d s)
      · rw [division_supervisor_next]; exact hvalid
      · have h1 := pending_length_after (d := e) (s := division_supervisor d s) hpend
        have h2 : rest.length ≤ k := by
          have h3 := hlen
          rw [hpend] at h3
          simpa using h3
        exact le_trans h1 h2

/-- C6: for every initial state, the compiled graph reaches the terminal in
at most (number of routed divisions + 2) node steps: the coordinator step,
one step per routed division (pending strictly shrinks at each supervisor
step), and one terminal aggregator/error step. -/
theorem graph_terminates (s0 : PState) :
    (runG ((chief_coordinator s0).next_divisions.length + 2)
      ("chief_coordinator", s0)).1 = ENDNODE := by
  rw [runG_succ', stepG_node s0 (by decide), nodeRun_coordinator,
    nextNodeName_coordinator]
  by_cases herr : pyTruthyStr (chief_coordinator s0).error = true
  · rw [route_from_coordinator_error herr, runG_succ,
      stepG_node _ (by decide), nextNodeName_error, runG_end]
  · rw [Bool.not_eq_true] at herr
    cases hnd : (chief_coordinator s0).next_divisions with
    | nil =>
      rw [route_from_coordinator_empty herr hnd, runG_succ,
        stepG_node _ (by decide), nextNodeName_aggregator, runG_end]
    | cons x rest =>
      have hvalid : ∀ y ∈ (chief_coordinator s0).next_divisions,
          ∃ e : Division, y = e.value := by
        cases hgl : s0.messages.getLast? with
        | none =>
          exfalso
          have h1 : (chief_coordinator s0).error = some "No messages to process" := by
            rw [chief_coordinator_of_getLast_none hgl]
          rw [h1] at herr
          exact absurd herr (by decide)
        | some m =>
          rw [chief_coordinator_next hgl]
          intro y hy
          obtain ⟨dd, _, rfl⟩ := List.mem_map.mp hy
          exact ⟨dd, rfl⟩
      obtain ⟨e, rfl⟩ := hvalid x (by rw [hnd]; exact List.mem_cons_self _ _)
      rw [route_from_coordinator_cons herr hnd]
      show (runG (rest.length + 1 + 1) (e.value ++ "_supervisor",
        chief_coordinator s0)).1 = ENDNODE
      apply run_from_supervisor rest.length e (chief_coordinator s0) hvalid
      rw [pendingOf_supervisor]
      unfold pendingOf
      rw [hnd, List.filter_filter, List.filter_cons, if_neg (by simp)]
      exact List.length_filter_le _ _

lemma error_handler_error (s : PState) : (error_handler s).error = s.error := rfl

lemma error_handler_completed (s : PState) :
    (error_handler s).completed_divisions = s.completed_divisions := rfl

lemma error_handler_results (s : PState) :
    (error_handler s).division_results = s.division_results := rfl

lemma error_handler_messages (s : PState) :
    (error_handler s).messages
      = s.messages ++ [.ai ("An error occurred while processing your request: "
          ++ s.error.getD "Unknown error occurred")] := rfl

lemma response_aggregator_completed (s : PState) :
    (response_aggregator s).completed_divisions = s.completed_divisions := rfl

lemma response_aggregator_results (s : PState) :
    (response_aggregator s).division_results = s.division_results := rfl

/-- C5: with an empty message list, the coordinator stores the fixed error,
the graph goes straight to the error terminal without visiting any division
(`completed_divisions` stays empty, `division_results` untouched), and the
final assistant message is the fixed error template applied to the stored
error. -/
theorem coordinator_empty_messages_error (s : PState) (n : Nat)
    (hmsg : s.messages = []) (hcomp : s.completed_divisions = [])
    (hn : 2 ≤ n) :
    (runG n ("chief_coordinator", s)).1 = ENDNODE
    ∧ (runG n ("chief_coordinator", s)).2.error = some "No messages to process"
    ∧ (runG n ("chief_coordinator", s)).2.completed_divisions = []
    ∧ (runG n ("chief_coordinator", s)).2.division_results = s.division_results
    ∧ (runG n ("chief_coordinator", s)).2.messages
        = [Message.ai
            "An error occurred while processing your request: No messages to process"] := by
  obtain ⟨m, rfl⟩ : ∃ m, n = m + 2 := ⟨n - 2, by omega⟩
  have hgl : s.messages.getLast? = none := by rw [hmsg]; rfl
  have hc : chief_coordinator s = { s with error := some "No messages to process" } :=
    chief_coordinator_of_getLast_none hgl
  have herr : (chief_coordinator s).error = some "No messages to process" := by
    rw [hc]
  have hroute : route_from_coordinator (chief_coordinator s) = "error_handler" := by
    apply route_from_coordinator_error
    rw [herr]
    decide
  have hstep : runG (m + 2) ("chief_coordinator", s)
      = runG m (ENDNODE, error_handler (chief_coordinator s)) := by
    rw [runG_add_two, stepG_node s (by decide), nodeRun_coordinator,
      nextNodeName_coordinator, hroute, stepG_node _ (by decide), nodeRun_error,
      nextNodeName_error]
  rw [hstep, runG_end]
  refine ⟨rfl, ?_, ?_, ?_, ?_⟩
  · rw [error_handler_error, herr]
  · rw [error_handler_completed, chief_coordinator_completed, hcomp]
  · rw [error_handler_results, chief_coordinator_results]
  · rw [error_handler_messages, chief_coordinator_messages, hmsg, herr]
    rfl

/-- A concrete request state with no messages. -/
def emptyMsgState : PState :=
  { tier1State with messages := [] }

/-- Witness for C5 at a concrete empty-message state. -/
theorem coordinator_empty_messages_error_witness :
    (runG 2 ("chief_coordinator", emptyMsgState)).1 = ENDNODE
    ∧ (runG 2 ("chief_coordinator", emptyMsgState)).2.error
        = some "No messages to process"
    ∧ (runG 2 ("chief_coordinator", emptyMsgState)).2.completed_divisions = []
    ∧ (runG 2 ("chief_coordinator", emptyMsgState)).2.division_results
        = emptyMsgState.division_results
    ∧ (runG 2 ("chief_coordinator", emptyMsgState)).2.messages
        = [Message.ai
            "An error occurred while processing your request: No messages to process"] :=
  coordinator_empty_messages_error emptyMsgState 2 rfl rfl (by decide)

/-! ## C7: completion/results invariant -/

/-- The orchestration invariant: no division is completed twice, result
keys are unique, and every completed division has a recorded result. -/
def InvS (s : PState) : Prop :=
  s.completed_divisions.Nodup
  ∧ (s.division_results.map Prod.fst).Nodup
  ∧ ∀ dn ∈ s.completed_divisions, dn ∈ s.division_results.map Prod.fst

lemma dictInsert_keys (k : String) (v : DivResult)
    (l : List (String × DivResult)) :
    (dictInsert k v l).map Prod.fst
      = if k ∈ l.map Prod.fst then l.map Prod.fst
        else l.map Prod.fst ++ [k] := by
  unfold dictInsert
  by_cases h : k ∈ l.map Prod.fst
  · rw [if_pos h, if_pos h, List.map_map]
    refine List.map_congr_left ?_
    intro p _
    by_cases hp : p.1 = k
    · simp [hp]
    · simp [hp]
  · rw [if_neg h, if_neg h, List.map_append]
    rfl

lemma InvS_of_fields {s s' : PState}
    (hc : s'.completed_divisions = s.completed_divisions)
    (hr : s'.division_results = s.division_results)
    (h : InvS s) : InvS s' := by
  unfold InvS
  rw [hc, hr]
  exact h

lemma InvS_supervisor (d : Division) (s : PState) (h : InvS s) :
    InvS (division_supervisor d s) := by
  obtain ⟨h1, h2, h3⟩ := h
  refine ⟨?_, ?_, ?_⟩
  · rw [division_supervisor_completed]
    by_cases hv : d.value ∈ s.completed_divisions
    · rw [if_pos hv]; exact h1
    · rw [if_neg hv, ← List.concat_eq_append]
      exact h1.concat hv
  · rw [division_supervisor_results, dictInsert_keys]
    by_cases hk : d.value ∈ s.division_results.map Prod.fst
    · rw [if_pos hk]; exact h2
    · rw [if_neg hk, ← List.concat_eq_append]
      exact h2.concat hk
  · intro dn hdn
    rw [division_supervisor_results, dictInsert_keys]
    rw [division_supervisor_completed] at hdn
    have hdn' : dn ∈ s.completed_divisions ∨ dn = d.value := by
      by_cases hv : d.value ∈ s.completed_divisions
      · rw [if_pos hv] at hdn; exact Or.inl hdn
      · rw [if_neg hv] at hdn
        rcases List.mem_append.mp hdn with h' | h'
        · exact Or.inl h'
        · exact Or.inr (List.mem_singleton.mp h')
    by_cases hk : d.value ∈ s.division_results.map Prod.fst
    · rw [if_pos hk]
      rcases hdn' with h' | h'
      · exact h3 dn h'
      · exact h' ▸ hk
    · rw [if_neg hk]
      rcases hdn' with h' | h'
      · exact List.mem_append_left _ (h3 dn h')
      · exact List.mem_append_right _ (h' ▸ List.mem_singleton_self _)

lemma InvS_nodeRun (name : String) (s : PState) (h : InvS s) :
    InvS (nodeRun name s) := by
  unfold nodeRun
  split_ifs with h1 h2 h3 h4 h5 h6 h7 h8
  · exact InvS_of_fields (chief_coordinator_completed s)
      (chief_coordinator_results s) h
  · exact InvS_of_fields (response_aggregator_completed s)
      (response_aggregator_results s) h
  · exact InvS_of_fields (error_handler_completed s)
      (error_handler_results s) h
  · exact InvS_supervisor _ s h
  · exact InvS_supervisor _ s h
  · exact InvS_supervisor _ s h
  · exact InvS_supervisor _ s h
  · exact InvS_supervisor _ s h
  · exact h

lemma InvS_runG (n : Nat) (name : String) (s : PState) (h : InvS s) :
    InvS (runG n (name, s)).2 := by
  induction n generalizing name s with
  | zero => exact h
  | succ n ih =>
    rw [runG_succ]
    by_cases he : name = ENDNODE
    · subst he
      rw [stepG_end]
      exact ih ENDNODE s h


    · rw [stepG_node s he]
      exact ih _ _ (InvS_nodeRun name s h)

/-- C7: after every number of steps of the graph from a fresh state, each
division appears in `completed_divisions` at most once and every completed
division has exactly one entry under its name in `division_results`
(recorded no later than the step that completed it, since the invariant
holds after every step). -/
theorem division_results_unique (s0 : PState) (n : Nat)
    (hcomp : s0.completed_divisions = []) (hres : s0.division_results = []) :
    ((runG n ("chief_coordinator", s0)).2.completed_divisions).Nodup
    ∧ ∀ dn ∈ (runG n ("chief_coordinator", s0)).2.completed_divisions,
        ((runG n ("chief_coordinator", s0)).2.division_results.countP
          (fun p => p.1 == dn)) = 1 := by
  have hInv : InvS (runG n ("chief_coordinator", s0)).2 := by
    refine InvS_runG n _ s0 ⟨?_, ?_, ?_⟩
    · rw [hcomp]; exact List.nodup_nil
    · rw [hres]; exact List.nodup_nil
    · rw [hcomp]; intro dn h; cases h
  obtain ⟨h1, h2, h3⟩ := hInv
  refine ⟨h1, fun dn hdn => ?_⟩
  have hcnt : (runG n ("chief_coordinator", s0)).2.division_results.countP
        (fun p => p.1 == dn)
      = ((runG n ("chief_coordinator", s0)).2.division_results.map
          Prod.fst).count dn := by
    rw [List.count_eq_countP, List.countP_map]
    rfl
  rw [hcnt]
  exact List.count_eq_one_of_mem h2 (h3 dn hdn)

/-- Witness for C7 at a concrete state and step count. -/
theorem division_results_unique_witness :
    ((runG 5 ("chief_coordinator", tier1State)).2.completed_divisions).Nodup :=
  (division_results_unique tier1State 5 rfl rfl).1

/-! ## C8: error handling after a division step -/

/-- A state with a truthy error and two still-pending divisions. -/
def errDivState : PState :=
  { tier1State with
    error := some "boom",
    next_divisions := ["strategic_planning", "market_intelligence"],
    completed_divisions := [] }

/-- Counterexample to C8: with the error field set and pending divisions
remaining, the graph's post-division conditional edge `route_from_division`
routes to the next pending division's supervisor — not to the error
terminal — and a further step still visits a division and accumulates its
result. -/
theorem route_from_division_ignores_error :
    pyTruthyStr errDivState.error = true
    ∧ pendingOf errDivState ≠ []
    ∧ route_from_division errDivState = "strategic_planning_supervisor"
    ∧ route_from_division errDivState ≠ "error_handler"
    ∧ (stepG ("strategic_planning_supervisor", errDivState)).1
        = "market_intelligence_supervisor"
    ∧ ((stepG ("strategic_planning_supervisor", errDivState)).2.division_results.map
        Prod.fst) = ["strategic_planning"] := by
  refine ⟨rfl, by decide, by decide, by decide, by decide, by decide⟩

/-- C8 as amended: the `route_to_next` helper in `routing.py` does
short-circuit to the error handler whenever a truthy error is set, but the
compiled graph wires `route_from_division` as its post-division edge, and
that function ignores the error field: it routes to the first pending
division's supervisor (or to the aggregator when nothing is pending)
regardless of the error. -/
theorem error_shortcircuit_amended (s : PState)
    (h : pyTruthyStr s.error = true) :
    route_to_next s = Sum.inl "error_handler"
    ∧ route_from_division s
        = (if pendingOf s = [] then "response_aggregator"
           else (pendingOf s).headD "" ++ "_supervisor") := by
  constructor
  · unfold route_to_next
    rw [if_pos h]
  · by_cases hp : pendingOf s = []
    · rw [if_pos hp, route_from_division_empty hp]
    · rw [if_neg hp]
      cases hpc : pendingOf s with
      | nil => exact absurd hpc hp
      | cons x rest =>
        rw [route_from_division_cons hpc]
        rfl

/-- Witness for the amended C8 at a concrete erroring state. -/
theorem error_shortcircuit_amended_witness :
    route_to_next errDivState = Sum.inl "error_handler" :=
  (error_shortcircuit_amended errDivState rfl).1

/-! ## C3: the response aggregator -/

/-- A state carrying two division results. -/
def aggState : PState :=
  { tier1State with
    messages := [.human "hi"],
    division_results :=
      [("strategic_planning",
        { division := "strategic_planning", status := "processed",
          summary := "summary one" }),
       ("market_intelligence",
        { division := "market_intelligence", status := "processed",
          summary := "summary two" })] }

/-- Counterexample to C3: aggregating two division results yields exactly
the two titled sections joined by a blank line, appended as one assistant
message — no multi-division banner is prefixed (the response contains no
occurrence of "Multi-Division" at all; the banner exists only in
`ChiefCoordinator.aggregate_responses`, which the compiled graph never
runs). -/
theorem response_aggregator_no_banner :
    aggState.division_results.length = 2
    ∧ (response_aggregator aggState).messages
        = aggState.messages
          ++ [Message.ai
              "**Strategic Planning**: summary one\n\n**Market Intelligence**: summary two"]
    ∧ strHasSub "Multi-Division".data
        "**Strategic Planning**: summary one\n\n**Market Intelligence**: summary two".data
      = false := by
  refine ⟨rfl, by decide, by decide⟩

/-- C3 as amended: for `N ≥ 1` division results the aggregator appends one
new assistant message holding exactly `N` titled sections, one per division
in insertion (visitation) order, each section titling the division and
carrying its summary — with no multi-division banner prefixed. -/
theorem response_aggregator_sections (s : PState)
    (h : s.division_results ≠ []) :
    (response_aggregator s).messages
      = s.messages
        ++ [Message.ai
            (String.intercalate "\n\n" (s.division_results.map sectionFor))]
    ∧ (s.division_results.map sectionFor).length = s.division_results.length
    ∧ ∀ p ∈ s.division_results,
        sectionFor p = "**" ++ pyTitleName p.1 ++ "**: " ++ p.2.summary := by
  refine ⟨?_, by rw [List.length_map], fun p _ => rfl⟩
  unfold response_aggregator
  cases hd : s.division_results with
  | nil => exact absurd hd h
  | cons a t => rfl

/-- Witness for the amended C3 at a concrete two-result state. -/
theorem response_aggregator_sections_witness :
    (response_aggregator aggState).messages
      = aggState.messages
        ++ [Message.ai
            (String.intercalate "\n\n" (aggState.division_results.map sectionFor))] :=
  (response_aggregator_sections aggState (by decide)).1

end Promotor
